import Mathlib

/-!
Verification of the scissor-detection pipeline.

The definitions below are a shallow embedding of the detection hook
(`usePersonDetection`) and of the auto-capture logic of the `WebcamFeed`
component.  Numeric values are modelled by `ℚ`; JavaScript arrays by
`List`; the raw model-output tensor by a function `ℕ → ℚ` indexed the way
`dataSync` flattens the transposed `[8400, 84]` tensor (row `i` starts at
offset `i * 84`).  The wall-clock `timestamp: new Date()` field of a
detection is not modelled (real time is outside the embedding).
-/

namespace ScissorDetection

/-- Corner-form box `[x1, y1, x2, y2]`, the `number[]` used by
`calculateIoU` / `nonMaxSuppression`. -/
structure Box where
  x1 : ℚ
  y1 : ℚ
  x2 : ℚ
  y2 : ℚ
  deriving DecidableEq, Repr, Inhabited

/-- `[x, y, width, height]` form of a published bounding box
(the `bbox` field of `ObjectDetection`). -/
structure Bbox where
  x : ℚ
  y : ℚ
  width : ℚ
  height : ℚ
  deriving DecidableEq, Repr, Inhabited

/-- The `ObjectDetection` record published to consumers
(`timestamp` omitted, see the file header). -/
structure ObjectDetection where
  bbox : Bbox
  confidence : ℚ
  className : String
  classIndex : ℕ
  deriving DecidableEq, Repr, Inhabited

/-- `PERSON_CLASS_INDEX = 0`. -/
def PERSON_CLASS_INDEX : ℕ := 0

/-- `SCISSORS_CLASS_INDEX = 76`. -/
def SCISSORS_CLASS_INDEX : ℕ := 76

/-- `CLASS_NAMES` record; total function, `""` outside the two keys
(the source only ever reads the two keys). -/
def CLASS_NAMES (c : ℕ) : String :=
  if c = PERSON_CLASS_INDEX then "person"
  else if c = SCISSORS_CLASS_INDEX then "scissors"
  else ""

/-- `DETECTION_CLASSES = [PERSON_CLASS_INDEX, SCISSORS_CLASS_INDEX]`. -/
def DETECTION_CLASSES : List ℕ := [PERSON_CLASS_INDEX, SCISSORS_CLASS_INDEX]

/-- The numeric fields of `YOLO_CONFIG` (the model URL is irrelevant here). -/
structure YoloConfig where
  inputSize : ℚ
  confidenceThreshold : ℚ
  iouThreshold : ℚ
  deriving Repr

/-- `YOLO_CONFIG = { inputSize: 640, confidenceThreshold: 0.5, iouThreshold: 0.4 }`. -/
def YOLO_CONFIG : YoloConfig :=
  { inputSize := 640, confidenceThreshold := 1/2, iouThreshold := 2/5 }

/-- `calculateIoU(box1, box2)`, transcribed from the hook: corner
coordinates, early `0` when the intersection is degenerate, otherwise
`intersectionArea / unionArea`. -/
def calculateIoU (box1 box2 : Box) : ℚ :=
  let intersectionX1 := max box1.x1 box2.x1
  let intersectionY1 := max box1.y1 box2.y1
  let intersectionX2 := min box1.x2 box2.x2
  let intersectionY2 := min box1.y2 box2.y2
  if intersectionX2 ≤ intersectionX1 ∨ intersectionY2 ≤ intersectionY1 then 0
  else
    let intersectionArea := (intersectionX2 - intersectionX1) * (intersectionY2 - intersectionY1)
    let box1Area := (box1.x2 - box1.x1) * (box1.y2 - box1.y1)
    let box2Area := (box2.x2 - box2.x1) * (box2.y2 - box2.y1)
    let unionArea := box1Area + box2Area - intersectionArea
    intersectionArea / unionArea

/-- The denominator `box1Area + box2Area - intersectionArea` that
`calculateIoU` divides by on its non-degenerate path. -/
def iouDenominator (box1 box2 : Box) : ℚ :=
  let intersectionX1 := max box1.x1 box2.x1
  let intersectionY1 := max box1.y1 box2.y1
  let intersectionX2 := min box1.x2 box2.x2
  let intersectionY2 := min box1.y2 box2.y2
  let intersectionArea := (intersectionX2 - intersectionX1) * (intersectionY2 - intersectionY1)
  let box1Area := (box1.x2 - box1.x1) * (box1.y2 - box1.y1)
  let box2Area := (box2.x2 - box2.x1) * (box2.y2 - box2.y1)
  box1Area + box2Area - intersectionArea

lemma calculateIoU_of_degenerate {box1 box2 : Box}
    (h : min box1.x2 box2.x2 ≤ max box1.x1 box2.x1 ∨
         min box1.y2 box2.y2 ≤ max box1.y1 box2.y1) :
    calculateIoU box1 box2 = 0 := by
  unfold calculateIoU
  simp only [if_pos h]

lemma calculateIoU_self_of_pos {b : Box} (hx : b.x1 < b.x2) (hy : b.y1 < b.y2) :
    calculateIoU b b = 1 := by
  unfold calculateIoU
  have hxm : min b.x2 b.x2 = b.x2 := min_self _
  have hym : min b.y2 b.y2 = b.y2 := min_self _
  have hxM : max b.x1 b.x1 = b.x1 := max_self _
  have hyM : max b.y1 b.y1 = b.y1 := max_self _
  rw [hxm, hym, hxM, hyM]
  rw [if_neg]
  · have harea : (0 : ℚ) < (b.x2 - b.x1) * (b.y2 - b.y1) :=
      mul_pos (by linarith) (by linarith)
    show ((b.x2 - b.x1) * (b.y2 - b.y1)) /
        ((b.x2 - b.x1) * (b.y2 - b.y1) + (b.x2 - b.x1) * (b.y2 - b.y1) -
         (b.x2 - b.x1) * (b.y2 - b.y1)) = 1
    rw [add_sub_cancel_right]
    exact div_self (ne_of_gt harea)
  · push_neg
    exact ⟨hx, hy⟩

/-- C7 counterexample: `calculateIoU` on a degenerate box compared with an
identical copy of itself returns `0`, not `1`, so "every box compared with
itself yields 1" fails. -/
theorem calculateIoU_degenerate_self_ne_one :
    calculateIoU ⟨0, 0, 0, 0⟩ ⟨0, 0, 0, 0⟩ = 0 ∧
    calculateIoU ⟨0, 0, 0, 0⟩ ⟨0, 0, 0, 0⟩ ≠ 1 := by
  constructor
  · exact calculateIoU_of_degenerate (Or.inl (by norm_num))
  · rw [calculateIoU_of_degenerate (Or.inl (by norm_num))]
    norm_num

/-- C7 (amended): for every pair of boxes with empty intersection
(intersection width or height ≤ 0) `calculateIoU` returns exactly `0`;
and for every box with positive width and height compared with an
identical copy of itself `calculateIoU` returns exactly `1`. -/
theorem calculateIoU_disjoint_zero_self_one :
    (∀ box1 box2 : Box,
      min box1.x2 box2.x2 - max box1.x1 box2.x1 ≤ 0 ∨
      min box1.y2 box2.y2 - max box1.y1 box2.y1 ≤ 0 →
      calculateIoU box1 box2 = 0) ∧
    (∀ b : Box, b.x1 < b.x2 → b.y1 < b.y2 → calculateIoU b b = 1) := by
  constructor
  · intro box1 box2 h
    apply calculateIoU_of_degenerate
    rcases h with h | h
    · exact Or.inl (by linarith)
    · exact Or.inr (by linarith)
  · intro b hx hy
    exact calculateIoU_self_of_pos hx hy

/-- C7 witness. -/
theorem calculateIoU_disjoint_zero_self_one_witness :
    calculateIoU ⟨0, 0, 1, 1⟩ ⟨2, 2, 3, 3⟩ = 0 ∧
    calculateIoU ⟨0, 0, 4, 2⟩ ⟨0, 0, 4, 2⟩ = 1 :=
  ⟨calculateIoU_disjoint_zero_self_one.1 ⟨0, 0, 1, 1⟩ ⟨2, 2, 3, 3⟩ (by norm_num),
   calculateIoU_disjoint_zero_self_one.2 ⟨0, 0, 4, 2⟩ (by norm_num) (by norm_num)⟩

/-- C8: on every input pair, either the degenerate-intersection guard fires
and `calculateIoU` returns `0` without dividing, or the union area it
divides by is strictly positive. -/
theorem calculateIoU_denominator_safe (box1 box2 : Box) :
    ((min box1.x2 box2.x2 ≤ max box1.x1 box2.x1 ∨
      min box1.y2 box2.y2 ≤ max box1.y1 box2.y1) ∧
     calculateIoU box1 box2 = 0) ∨
    0 < iouDenominator box1 box2 := by
  by_cases h : min box1.x2 box2.x2 ≤ max box1.x1 box2.x1 ∨
      min box1.y2 box2.y2 ≤ max box1.y1 box2.y1
  · exact Or.inl ⟨h, calculateIoU_of_degenerate h⟩
  · push_neg at h
    obtain ⟨hx, hy⟩ := h
    right
    show 0 < (box1.x2 - box1.x1) * (box1.y2 - box1.y1) +
        (box2.x2 - box2.x1) * (box2.y2 - box2.y1) -
        (min box1.x2 box2.x2 - max box1.x1 box2.x1) *
        (min box1.y2 box2.y2 - max box1.y1 box2.y1)
    have hx1 : box1.x1 ≤ max box1.x1 box2.x1 := le_max_left _ _
    have hx2 : box2.x1 ≤ max box1.x1 box2.x1 := le_max_right _ _
    have hx3 : min box1.x2 box2.x2 ≤ box1.x2 := min_le_left _ _
    have hx4 : min box1.x2 box2.x2 ≤ box2.x2 := min_le_right _ _
    have hy1 : box1.y1 ≤ max box1.y1 box2.y1 := le_max_left _ _
    have hy2 : box2.y1 ≤ max box1.y1 box2.y1 := le_max_right _ _
    have hy3 : min box1.y2 box2.y2 ≤ box1.y2 := min_le_left _ _
    have hy4 : min box1.y2 box2.y2 ≤ box2.y2 := min_le_right _ _
    have hiw : (0 : ℚ) < min box1.x2 box2.x2 - max box1.x1 box2.x1 := by linarith
    have hih : (0 : ℚ) < min box1.y2 box2.y2 - max box1.y1 box2.y1 := by linarith
    have hinter : (0 : ℚ) < (min box1.x2 box2.x2 - max box1.x1 box2.x1) *
        (min box1.y2 box2.y2 - max box1.y1 box2.y1) := mul_pos hiw hih
    have hb2 : (0 : ℚ) < (box2.x2 - box2.x1) * (box2.y2 - box2.y1) :=
      mul_pos (by linarith) (by linarith)
    have hle : (min box1.x2 box2.x2 - max box1.x1 box2.x1) *
        (min box1.y2 box2.y2 - max box1.y1 box2.y1) ≤
        (box1.x2 - box1.x1) * (box1.y2 - box1.y1) := by
      apply mul_le_mul (by linarith) (by linarith) (le_of_lt hih) (by linarith)
    linarith

/-- One element of `validDetections` inside `nonMaxSuppression`:
`{ box, score: scores[index], index }`. -/
structure Scored where
  box : Box
  score : ℚ
  index : ℕ
  deriving DecidableEq, Repr, Inhabited

/-- `boxes.map((box, index) => ({ box, score: scores[index], index }))`. -/
def indexedDetections (boxes : List Box) (scores : List ℚ) : List Scored :=
  boxes.enum.map fun p => { box := p.2, score := scores.getD p.1 0, index := p.1 }

/-- Stable insertion of one element into a list already sorted by
descending score; together with `sortByScoreDesc` this models the stable
`Array.prototype.sort` call with comparator `(a, b) => b.score - a.score`
(ties keep original order). -/
def insertDesc (a : Scored) : List Scored → List Scored
  | [] => [a]
  | b :: l => if b.score < a.score then a :: b :: l else b :: insertDesc a l

/-- Stable descending-by-score sort of `validDetections`. -/
def sortByScoreDesc : List Scored → List Scored
  | [] => []
  | a :: l => insertDesc a (sortByScoreDesc l)

/-- Inner loop of `nonMaxSuppression`: walk all of `validDetections` and
suppress every other not-yet-suppressed detection whose IoU with the just
selected detection `d` exceeds `iouThreshold`. -/
def suppressOthers (valid : List Scored) (d : Scored) (iouThreshold : ℚ)
    (sup : List ℕ) : List ℕ :=
  valid.foldl
    (fun sup2 o =>
      if o.index = d.index ∨ o.index ∈ sup2 then sup2
      else if iouThreshold < calculateIoU d.box o.box then sup2 ++ [o.index]
      else sup2)
    sup

/-- Outer loop of `nonMaxSuppression` over `validDetections`, threading
the `selectedIndices` and `suppressedIndices` accumulators. -/
def nmsLoop (valid : List Scored) (iouThreshold : ℚ) :
    List Scored → List ℕ × List ℕ → List ℕ × List ℕ
  | [], st => st
  | d :: rest, (sel, sup) =>
    if d.index ∈ sup then nmsLoop valid iouThreshold rest (sel, sup)
    else nmsLoop valid iouThreshold rest
      (sel ++ [d.index], suppressOthers valid d iouThreshold sup)

/-- `nonMaxSuppression(boxes, scores, confidenceThreshold, iouThreshold)`:
index/score pairing, confidence filter, stable descending sort, then the
greedy select-and-suppress loop; returns `selectedIndices`. -/
def nonMaxSuppression (boxes : List Box) (scores : List ℚ)
    (confidenceThreshold iouThreshold : ℚ) : List ℕ :=
  let validDetections :=
    sortByScoreDesc ((indexedDetections boxes scores).filter
      fun d => confidenceThreshold ≤ d.score)
  (nmsLoop validDetections iouThreshold validDetections ([], [])).1

/-- C6: two candidates with identical positive-area boxes, both at or
above the confidence threshold with `s2 < s1`: NMS selects exactly the
index carrying score `s1` and suppresses the other, in either input
order. -/
theorem nonMaxSuppression_identical_pair (b : Box) (s1 s2 : ℚ)
    (hx : b.x1 < b.x2) (hy : b.y1 < b.y2)
    (h2 : YOLO_CONFIG.confidenceThreshold ≤ s2) (h12 : s2 < s1) :
    nonMaxSuppression [b, b] [s1, s2] YOLO_CONFIG.confidenceThreshold
      YOLO_CONFIG.iouThreshold = [0] ∧
    nonMaxSuppression [b, b] [s2, s1] YOLO_CONFIG.confidenceThreshold
      YOLO_CONFIG.iouThreshold = [1] := by
  have h1 : YOLO_CONFIG.confidenceThreshold ≤ s1 := le_of_lt (lt_of_le_of_lt h2 h12)
  have hiou : calculateIoU b b = 1 := calculateIoU_self_of_pos hx hy
  have hth : YOLO_CONFIG.iouThreshold < calculateIoU b b := by
    rw [hiou]; norm_num [YOLO_CONFIG]
  constructor
  · show (nmsLoop _ _ _ _).1 = [0]
    rw [show (indexedDetections [b, b] [s1, s2]) =
        [⟨b, s1, 0⟩, ⟨b, s2, 1⟩] from rfl]
    rw [List.filter_cons_of_pos (by simpa using h1),
        List.filter_cons_of_pos (by simpa using h2), List.filter_nil]
    rw [show sortByScoreDesc [⟨b, s1, 0⟩, ⟨b, s2, 1⟩] =
        insertDesc ⟨b, s1, 0⟩ [⟨b, s2, 1⟩] from rfl]
    rw [show insertDesc ⟨b, s1, 0⟩ [⟨b, s2, 1⟩] =
        if (⟨b, s2, 1⟩ : Scored).score < (⟨b, s1, 0⟩ : Scored).score then
          [⟨b, s1, 0⟩, ⟨b, s2, 1⟩] else [⟨b, s2, 1⟩, ⟨b, s1, 0⟩] from rfl,
       if_pos h12]
    norm_num [nmsLoop, suppressOthers, List.foldl, hiou, YOLO_CONFIG]
  · show (nmsLoop _ _ _ _).1 = [1]
    rw [show (indexedDetections [b, b] [s2, s1]) =
        [⟨b, s2, 0⟩, ⟨b, s1, 1⟩] from rfl]
    rw [List.filter_cons_of_pos (by simpa using h2),
        List.filter_cons_of_pos (by simpa using h1), List.filter_nil]
    rw [show sortByScoreDesc [⟨b, s2, 0⟩, ⟨b, s1, 1⟩] =
        insertDesc ⟨b, s2, 0⟩ [⟨b, s1, 1⟩] from rfl]
    rw [show insertDesc ⟨b, s2, 0⟩ [⟨b, s1, 1⟩] =
        if (⟨b, s1, 1⟩ : Scored).score < (⟨b, s2, 0⟩ : Scored).score then
          [⟨b, s2, 0⟩, ⟨b, s1, 1⟩] else [⟨b, s1, 1⟩, ⟨b, s2, 0⟩] from rfl,
       if_neg (by exact not_lt.2 (le_of_lt h12))]
    norm_num [nmsLoop, suppressOthers, List.foldl, hiou, YOLO_CONFIG]

/-- C6 witness. -/
theorem nonMaxSuppression_identical_pair_witness :
    nonMaxSuppression [⟨0, 0, 2, 2⟩, ⟨0, 0, 2, 2⟩] [9/10, 3/5]
      YOLO_CONFIG.confidenceThreshold YOLO_CONFIG.iouThreshold = [0] ∧
    nonMaxSuppression [⟨0, 0, 2, 2⟩, ⟨0, 0, 2, 2⟩] [3/5, 9/10]
      YOLO_CONFIG.confidenceThreshold YOLO_CONFIG.iouThreshold = [1] :=
  nonMaxSuppression_identical_pair ⟨0, 0, 2, 2⟩ (9/10) (3/5)
    (by norm_num) (by norm_num) (by norm_num [YOLO_CONFIG]) (by norm_num)

/-- One decoded candidate of `processDetections` before NMS:
`{ box, score, classIndex, className }` with the box already in corner
form and scaled to source-frame space. -/
structure RawCandidate where
  box : Box
  score : ℚ
  classIndex : ℕ
  className : String
  deriving DecidableEq, Repr, Inhabited

/-- The decoding loop of `processDetections`: `data` is the flattened
transposed output (`dataSync` of the `[8400, 84]` tensor, row `i` at
offset `i * 84`); for each row and each monitored class index, keep the
candidate when its class confidence reaches the threshold, converting the
center-form box to corner form scaled by `video / inputSize` per axis. -/
def decodeCandidates (data : ℕ → ℚ) (numDetections : ℕ)
    (videoWidth videoHeight : ℚ) : List RawCandidate :=
  (List.range numDetections).flatMap fun i =>
    DETECTION_CLASSES.filterMap fun classIndex =>
      let offset := i * 84
      let classConfidence := data (offset + 4 + classIndex)
      if YOLO_CONFIG.confidenceThreshold ≤ classConfidence then
        let centerX := data (offset + 0)
        let centerY := data (offset + 1)
        let width := data (offset + 2)
        let height := data (offset + 3)
        some { box := { x1 := (centerX - width / 2) * (videoWidth / YOLO_CONFIG.inputSize),
                        y1 := (centerY - height / 2) * (videoHeight / YOLO_CONFIG.inputSize),
                        x2 := (centerX + width / 2) * (videoWidth / YOLO_CONFIG.inputSize),
                        y2 := (centerY + height / 2) * (videoHeight / YOLO_CONFIG.inputSize) },
               score := classConfidence,
               classIndex := classIndex,
               className := CLASS_NAMES classIndex }
      else none

/-- Iteration order of the `detectionsByClass` map: class keys in order of
first occurrence (a JS `Map` preserves insertion order). -/
def classKeys (dets : List RawCandidate) : List ℕ :=
  dets.foldl (fun acc d => if d.classIndex ∈ acc then acc else acc ++ [d.classIndex]) []

/-- `processDetections(output, videoWidth, videoHeight)`: decode
candidates, group them by class, run NMS per class with the configured
thresholds, and convert each selected candidate to the published
`[x, y, width, height]` record. -/
def processDetections (data : ℕ → ℚ) (numDetections : ℕ)
    (videoWidth videoHeight : ℚ) : List ObjectDetection :=
  let detections := decodeCandidates data numDetections videoWidth videoHeight
  (classKeys detections).flatMap fun c =>
    let classDetections := detections.filter fun d => d.classIndex = c
    let boxes := classDetections.map (·.box)
    let scores := classDetections.map (·.score)
    let selectedIndices := nonMaxSuppression boxes scores
      YOLO_CONFIG.confidenceThreshold YOLO_CONFIG.iouThreshold
    selectedIndices.map fun index =>
      let detection := classDetections.getD index default
      { bbox := { x := detection.box.x1, y := detection.box.y1,
                  width := detection.box.x2 - detection.box.x1,
                  height := detection.box.y2 - detection.box.y1 },
        confidence := detection.score,
        className := detection.className,
        classIndex := detection.classIndex }

/-- The raw output of the single-candidate scenario: one row scoring 0.9
for class 0 with center-form box (320, 240, 100, 100); everything else
(including the class-76 score at offset 80) is 0. -/
def scenarioData : ℕ → ℚ := fun k =>
  if k = 0 then 320 else if k = 1 then 240
  else if k = 2 then 100 else if k = 3 then 100
  else if k = 4 then 9/10 else 0

/-- C2 counterexample: on the spec's single-candidate scenario (score 0.9
for class 0, center-form box (320, 240, 100, 100), 640×640 model space,
640×480 frame) the published bbox is `[270, 142.5, 100, 75]`, which is
not the claimed `[270, 170, 85, 75]`. -/
theorem processDetections_scenario_bbox_ne_claimed :
    (processDetections scenarioData 1 640 480).map (fun d => d.bbox) =
      [{ x := 270, y := 285/2, width := 100, height := 75 }] ∧
    ({ x := 270, y := 285/2, width := 100, height := 75 } : Bbox) ≠
      { x := 270, y := 170, width := 85, height := 75 } := by
  constructor
  · have hdec : decodeCandidates scenarioData 1 640 480 =
        [{ box := { x1 := 270, y1 := 285/2, x2 := 370, y2 := 435/2 },
           score := 9/10, classIndex := 0, className := "person" }] := by
      norm_num [decodeCandidates, scenarioData, DETECTION_CLASSES, PERSON_CLASS_INDEX,
        SCISSORS_CLASS_INDEX, CLASS_NAMES, YOLO_CONFIG, List.range_succ,
        List.filterMap_cons, List.filterMap_nil]
    simp only [processDetections, hdec]
    norm_num [classKeys, nonMaxSuppression, indexedDetections, sortByScoreDesc, insertDesc,
      nmsLoop, suppressOthers, List.foldl, YOLO_CONFIG, CLASS_NAMES, PERSON_CLASS_INDEX,
      SCISSORS_CLASS_INDEX, List.getD]
  · intro h
    have := congrArg Bbox.y h
    norm_num at this

/-- C2 (amended): for the single-candidate scenario row (score 0.9 for
class 0, center (320, 240), size 100×100, class-76 score below threshold),
`processDetections` at 640×480 returns exactly one detection, whose bbox
in `[x, y, width, height]` form is `[270, 142.5, 100, 75]`. -/
theorem processDetections_scenario (data : ℕ → ℚ)
    (h0 : data 0 = 320) (h1 : data 1 = 240) (h2 : data 2 = 100) (h3 : data 3 = 100)
    (h4 : data 4 = 9/10) (h80 : data 80 < 1/2) :
    processDetections data 1 640 480 =
      [{ bbox := { x := 270, y := 285/2, width := 100, height := 75 },
         confidence := 9/10, className := "person", classIndex := 0 }] := by
  have hdec : decodeCandidates data 1 640 480 =
      [{ box := { x1 := 270, y1 := 285/2, x2 := 370, y2 := 435/2 },
         score := 9/10, classIndex := 0, className := "person" }] := by
    norm_num [decodeCandidates, DETECTION_CLASSES, PERSON_CLASS_INDEX, SCISSORS_CLASS_INDEX,
      CLASS_NAMES, YOLO_CONFIG, List.range_succ, List.filterMap_cons, List.filterMap_nil,
      h0, h1, h2, h3, h4, not_le.2 h80]
  simp only [processDetections, hdec]
  norm_num [classKeys, nonMaxSuppression, indexedDetections, sortByScoreDesc, insertDesc,
    nmsLoop, suppressOthers, List.foldl, YOLO_CONFIG, CLASS_NAMES, PERSON_CLASS_INDEX,
    SCISSORS_CLASS_INDEX, List.getD]

/-- C2 witness. -/
theorem processDetections_scenario_witness :
    processDetections scenarioData 1 640 480 =
      [{ bbox := { x := 270, y := 285/2, width := 100, height := 75 },
         confidence := 9/10, className := "person", classIndex := 0 }] :=
  processDetections_scenario scenarioData (by norm_num [scenarioData])
    (by norm_num [scenarioData]) (by norm_num [scenarioData]) (by norm_num [scenarioData])
    (by norm_num [scenarioData]) (by norm_num [scenarioData])

/-- C5: when every monitored-class score of every candidate row is
strictly below the confidence threshold, `processDetections` returns the
empty list. -/
theorem processDetections_empty_of_low_scores (data : ℕ → ℚ) (n : ℕ)
    (videoWidth videoHeight : ℚ)
    (hlow : ∀ i < n, ∀ c ∈ DETECTION_CLASSES,
      data (i * 84 + 4 + c) < YOLO_CONFIG.confidenceThreshold) :
    processDetections data n videoWidth videoHeight = [] := by
  have hdec : decodeCandidates data n videoWidth videoHeight = [] := by
    unfold decodeCandidates
    rw [List.flatMap_eq_nil_iff]
    intro i hi
    rw [List.mem_range] at hi
    have h0 := hlow i hi PERSON_CLASS_INDEX (by simp [DETECTION_CLASSES])
    have h76 := hlow i hi SCISSORS_CLASS_INDEX (by simp [DETECTION_CLASSES])
    simp only [DETECTION_CLASSES, List.filterMap_cons, List.filterMap_nil,
      if_neg (not_le.2 h0), if_neg (not_le.2 h76)]
  simp [processDetections, hdec, classKeys]

/-- C5 witness. -/
theorem processDetections_empty_of_low_scores_witness :
    processDetections (fun _ => 0) 1 640 480 = [] :=
  processDetections_empty_of_low_scores (fun _ => 0) 1 640 480
    (by intro i _ c _; norm_num [YOLO_CONFIG])

lemma insertDesc_perm (a : Scored) (l : List Scored) :
    (insertDesc a l).Perm (a :: l) := by
  induction l with
  | nil => simp [insertDesc]
  | cons b t ih =>
    rw [insertDesc]
    by_cases h : b.score < a.score
    · rw [if_pos h]
    · rw [if_neg h]
      exact ((ih.cons b).trans (List.Perm.swap a b t))

lemma sortByScoreDesc_perm (l : List Scored) : (sortByScoreDesc l).Perm l := by
  induction l with
  | nil => simp [sortByScoreDesc]
  | cons a t ih =>
    rw [sortByScoreDesc]
    exact (insertDesc_perm a (sortByScoreDesc t)).trans (ih.cons a)

lemma mem_indexedDetections {boxes : List Box} {scores : List ℚ} {e : Scored}
    (he : e ∈ indexedDetections boxes scores) :
    e.index < boxes.length ∧ boxes.getD e.index default = e.box ∧
      scores.getD e.index 0 = e.score := by
  rw [indexedDetections, List.mem_map] at he
  obtain ⟨p, hp, rfl⟩ := he
  rw [List.mem_enum_iff_getElem?, List.getElem?_eq_some_iff] at hp
  obtain ⟨hlt, hget⟩ := hp
  refine ⟨hlt, ?_, rfl⟩
  rw [List.getD_eq_getElem?_getD, List.getElem?_eq_getElem hlt, hget]
  rfl

lemma nmsLoop_fst_mem {valid : List Scored} {it : ℚ} {todo : List Scored}
    {sel sup : List ℕ} {s : ℕ}
    (hs : s ∈ (nmsLoop valid it todo (sel, sup)).1) :
    s ∈ sel ∨ ∃ e ∈ todo, e.index = s := by
  induction todo generalizing sel sup with
  | nil => simp only [nmsLoop] at hs; exact Or.inl hs
  | cons d rest ih =>
    rw [nmsLoop] at hs
    by_cases hd : d.index ∈ sup
    · rw [if_pos hd] at hs
      rcases ih hs with h | ⟨e, he, hes⟩
      · exact Or.inl h
      · exact Or.inr ⟨e, List.mem_cons_of_mem d he, hes⟩
    · rw [if_neg hd] at hs
      rcases ih hs with h | ⟨e, he, hes⟩
      · rcases List.mem_append.1 h with h | h
        · exact Or.inl h
        · exact Or.inr ⟨d, List.mem_cons_self d rest, (List.mem_singleton.1 h).symm⟩
      · exact Or.inr ⟨e, List.mem_cons_of_mem d he, hes⟩

lemma mem_nonMaxSuppression_exists {boxes : List Box} {scores : List ℚ}
    {ct it : ℚ} {s : ℕ} (hs : s ∈ nonMaxSuppression boxes scores ct it) :
    ∃ e ∈ indexedDetections boxes scores, ct ≤ e.score ∧ e.index = s := by
  rw [nonMaxSuppression] at hs
  rcases nmsLoop_fst_mem hs with h | ⟨e, he, hes⟩
  · simp at h
  · have := (sortByScoreDesc_perm _).mem_iff.1 he
    rw [List.mem_filter] at this
    exact ⟨e, this.1, by simpa using this.2, hes⟩

lemma nonMaxSuppression_lt_length {boxes : List Box} {scores : List ℚ}
    {ct it : ℚ} {s : ℕ} (hs : s ∈ nonMaxSuppression boxes scores ct it) :
    s < boxes.length := by
  obtain ⟨e, he, _, rfl⟩ := mem_nonMaxSuppression_exists hs
  exact (mem_indexedDetections he).1

lemma mem_decodeCandidates {data : ℕ → ℚ} {n : ℕ} {w h : ℚ} {d : RawCandidate}
    (hd : d ∈ decodeCandidates data n w h) :
    YOLO_CONFIG.confidenceThreshold ≤ d.score ∧
      (d.classIndex = PERSON_CLASS_INDEX ∨ d.classIndex = SCISSORS_CLASS_INDEX) ∧
      d.className = CLASS_NAMES d.classIndex := by
  rw [decodeCandidates, List.mem_flatMap] at hd
  obtain ⟨i, _, hi⟩ := hd
  rw [List.mem_filterMap] at hi
  obtain ⟨c, hc, heq⟩ := hi
  simp only [DETECTION_CLASSES, List.mem_cons, List.not_mem_nil, or_false] at hc
  by_cases hth : YOLO_CONFIG.confidenceThreshold ≤ data (i * 84 + 4 + c)
  · rw [if_pos hth] at heq
    injection heq with heq
    subst heq
    rcases hc with rfl | rfl
    · exact ⟨hth, Or.inl rfl, rfl⟩
    · exact ⟨hth, Or.inr rfl, rfl⟩
  · rw [if_neg hth] at heq
    exact absurd heq (by simp)

/-- C10: every detection published by `processDetections` has confidence at
or above the configured threshold 0.5, class index 0 or 76, and the class
name matching its class index (`person` for 0, `scissors` for 76). -/
theorem processDetections_published_spec (data : ℕ → ℚ) (n : ℕ)
    (videoWidth videoHeight : ℚ) (det : ObjectDetection)
    (hmem : det ∈ processDetections data n videoWidth videoHeight) :
    YOLO_CONFIG.confidenceThreshold ≤ det.confidence ∧
    (det.classIndex = PERSON_CLASS_INDEX ∨ det.classIndex = SCISSORS_CLASS_INDEX) ∧
    (det.classIndex = PERSON_CLASS_INDEX → det.className = "person") ∧
    (det.classIndex = SCISSORS_CLASS_INDEX → det.className = "scissors") := by
  rw [processDetections, List.mem_flatMap] at hmem
  obtain ⟨c, _, hdet⟩ := hmem
  rw [List.mem_map] at hdet
  obtain ⟨idx, hidx, heq⟩ := hdet
  have hlt : idx < ((decodeCandidates data n videoWidth videoHeight).filter
      fun d => d.classIndex = c).length := by
    have := nonMaxSuppression_lt_length hidx
    simpa using this
  set cds := (decodeCandidates data n videoWidth videoHeight).filter
    fun d => d.classIndex = c with hcds
  have hmemc : cds.getD idx default ∈ cds := by
    rw [List.getD_eq_getElem?_getD, List.getElem?_eq_getElem hlt]
    exact List.getElem_mem hlt
  have hmemd : cds.getD idx default ∈ decodeCandidates data n videoWidth videoHeight :=
    (List.mem_filter.1 hmemc).1
  obtain ⟨hscore, hclass, hname⟩ := mem_decodeCandidates hmemd
  subst heq
  refine ⟨hscore, hclass, ?_, ?_⟩
  · intro h0
    simp only at h0 ⊢
    rw [hname, h0, CLASS_NAMES, if_pos rfl]
  · intro h76
    simp only at h76 ⊢
    rw [hname, h76, CLASS_NAMES]
    norm_num [SCISSORS_CLASS_INDEX, PERSON_CLASS_INDEX]

/-- C10 witness. -/
theorem processDetections_published_spec_witness :
    YOLO_CONFIG.confidenceThreshold ≤
      ({ bbox := { x := 270, y := 285/2, width := 100, height := 75 },
         confidence := 9/10, className := "person",
         classIndex := 0 } : ObjectDetection).confidence ∧
    (({ bbox := { x := 270, y := 285/2, width := 100, height := 75 },
        confidence := 9/10, className := "person",
        classIndex := 0 } : ObjectDetection).classIndex = PERSON_CLASS_INDEX ∨
     ({ bbox := { x := 270, y := 285/2, width := 100, height := 75 },
        confidence := 9/10, className := "person",
        classIndex := 0 } : ObjectDetection).classIndex = SCISSORS_CLASS_INDEX) ∧
    (({ bbox := { x := 270, y := 285/2, width := 100, height := 75 },
        confidence := 9/10, className := "person",
        classIndex := 0 } : ObjectDetection).classIndex = PERSON_CLASS_INDEX →
     ({ bbox := { x := 270, y := 285/2, width := 100, height := 75 },
        confidence := 9/10, className := "person",
        classIndex := 0 } : ObjectDetection).className = "person") ∧
    (({ bbox := { x := 270, y := 285/2, width := 100, height := 75 },
        confidence := 9/10, className := "person",
        classIndex := 0 } : ObjectDetection).classIndex = SCISSORS_CLASS_INDEX →
     ({ bbox := { x := 270, y := 285/2, width := 100, height := 75 },
        confidence := 9/10, className := "person",
        classIndex := 0 } : ObjectDetection).className = "scissors") :=
  processDetections_published_spec scenarioData 1 640 480 _ (by
    have hdec : decodeCandidates scenarioData 1 640 480 =
        [{ box := { x1 := 270, y1 := 285/2, x2 := 370, y2 := 435/2 },
           score := 9/10, classIndex := 0, className := "person" }] := by
      norm_num [decodeCandidates, scenarioData, DETECTION_CLASSES, PERSON_CLASS_INDEX,
        SCISSORS_CLASS_INDEX, CLASS_NAMES, YOLO_CONFIG, List.range_succ,
        List.filterMap_cons, List.filterMap_nil]
    simp only [processDetections, hdec]
    norm_num [classKeys, nonMaxSuppression, indexedDetections, sortByScoreDesc, insertDesc,
      nmsLoop, suppressOthers, List.foldl, YOLO_CONFIG, CLASS_NAMES, PERSON_CLASS_INDEX,
      SCISSORS_CLASS_INDEX, List.getD])

lemma calculateIoU_comm (a b : Box) : calculateIoU a b = calculateIoU b a := by
  show (if min a.x2 b.x2 ≤ max a.x1 b.x1 ∨ min a.y2 b.y2 ≤ max a.y1 b.y1 then (0 : ℚ)
      else ((min a.x2 b.x2 - max a.x1 b.x1) * (min a.y2 b.y2 - max a.y1 b.y1)) /
        ((a.x2 - a.x1) * (a.y2 - a.y1) + (b.x2 - b.x1) * (b.y2 - b.y1) -
         (min a.x2 b.x2 - max a.x1 b.x1) * (min a.y2 b.y2 - max a.y1 b.y1))) =
    (if min b.x2 a.x2 ≤ max b.x1 a.x1 ∨ min b.y2 a.y2 ≤ max b.y1 a.y1 then (0 : ℚ)
      else ((min b.x2 a.x2 - max b.x1 a.x1) * (min b.y2 a.y2 - max b.y1 a.y1)) /
        ((b.x2 - b.x1) * (b.y2 - b.y1) + (a.x2 - a.x1) * (a.y2 - a.y1) -
         (min b.x2 a.x2 - max b.x1 a.x1) * (min b.y2 a.y2 - max b.y1 a.y1)))
  rw [max_comm b.x1 a.x1, max_comm b.y1 a.y1, min_comm b.x2 a.x2, min_comm b.y2 a.y2]
  split_ifs with h
  · rfl
  · ring_nf

lemma subset_suppressOthers (valid : List Scored) (d : Scored) (it : ℚ)
    (sup : List ℕ) : sup ⊆ suppressOthers valid d it sup := by
  induction valid generalizing sup with
  | nil => simp [suppressOthers]
  | cons o rest ih =>
    rw [suppressOthers, List.foldl_cons]
    show sup ⊆ suppressOthers rest d it _
    refine subset_trans ?_ (ih _)
    by_cases h1 : o.index = d.index ∨ o.index ∈ sup
    · rw [if_pos h1]
      exact List.Subset.refl _
    · rw [if_neg h1]
      by_cases h2 : it < calculateIoU d.box o.box
      · rw [if_pos h2]; exact List.subset_append_left _ _
      · rw [if_neg h2]
        exact List.Subset.refl _

lemma mem_suppressOthers_of_conflict {valid : List Scored} {d o : Scored}
    {it : ℚ} (ho : o ∈ valid) (hne : o.index ≠ d.index)
    (hiou : it < calculateIoU d.box o.box) (sup : List ℕ) :
    o.index ∈ suppressOthers valid d it sup := by
  induction valid generalizing sup with
  | nil => simp at ho
  | cons a rest ih =>
    rw [suppressOthers, List.foldl_cons]
    show o.index ∈ suppressOthers rest d it _
    rcases List.mem_cons.1 ho with rfl | hrest
    · by_cases h1 : o.index = d.index ∨ o.index ∈ sup
      · rcases h1 with h1 | h1
        · exact absurd h1 hne
        · rw [if_pos (Or.inr h1)]
          exact subset_suppressOthers rest d it sup h1
      · rw [if_neg h1, if_pos hiou]
        exact subset_suppressOthers rest d it _ (by simp)
    · exact ih hrest _

lemma nmsLoop_fst_nodup {valid : List Scored} {it : ℚ} :
    ∀ (todo : List Scored) (sel sup : List ℕ),
    (sel ++ todo.map Scored.index).Nodup →
    (nmsLoop valid it todo (sel, sup)).1.Nodup := by
  intro todo
  induction todo with
  | nil => intro sel sup h; rw [nmsLoop]; simpa using h
  | cons d rest ih =>
    intro sel sup h
    rw [nmsLoop]
    by_cases hd : d.index ∈ sup
    · rw [if_pos hd]
      refine ih sel sup (List.Nodup.sublist (List.Sublist.append_left ?_ sel) h)
      exact (rest.map Scored.index).sublist_cons_self d.index
    · rw [if_neg hd]
      refine ih (sel ++ [d.index]) _ ?_
      rw [List.append_assoc]
      simpa using h

lemma nmsLoop_fst_subset_valid {valid : List Scored} {it : ℚ} :
    ∀ (todo : List Scored) (sel sup : List ℕ),
    (nmsLoop valid it todo (sel, sup)).1 ⊆ sel ++ todo.map Scored.index := by
  intro todo
  induction todo with
  | nil => intro sel sup; rw [nmsLoop]; simp
  | cons d rest ih =>
    intro sel sup
    rw [nmsLoop]
    by_cases hd : d.index ∈ sup
    · rw [if_pos hd]
      refine subset_trans (ih sel sup) ?_
      intro x hx
      rcases List.mem_append.1 hx with hx | hx
      · exact List.mem_append.2 (Or.inl hx)
      · exact List.mem_append.2 (Or.inr (List.mem_cons_of_mem _ hx))
    · rw [if_neg hd]
      refine subset_trans (ih _ _) ?_
      intro x hx
      rcases List.mem_append.1 hx with hx | hx
      · rcases List.mem_append.1 hx with hx | hx
        · exact List.mem_append.2 (Or.inl hx)
        · exact List.mem_append.2 (Or.inr (by simpa using Or.inl (List.mem_singleton.1 hx)))
      · exact List.mem_append.2 (Or.inr (List.mem_cons_of_mem _ hx))

/-- Indices of `validDetections` are pairwise distinct. -/
lemma validDetections_index_nodup (boxes : List Box) (scores : List ℚ) (ct : ℚ) :
    ((sortByScoreDesc ((indexedDetections boxes scores).filter
      fun d => ct ≤ d.score)).map Scored.index).Nodup := by
  have hperm := (sortByScoreDesc_perm ((indexedDetections boxes scores).filter
    fun d => ct ≤ d.score)).map Scored.index
  rw [hperm.nodup_iff]
  have hsub : (((indexedDetections boxes scores).filter
      fun d => ct ≤ d.score).map Scored.index).Sublist
      ((indexedDetections boxes scores).map Scored.index) :=
    (List.filter_sublist _).map Scored.index
  refine hsub.nodup ?_
  have : (indexedDetections boxes scores).map Scored.index =
      boxes.enum.map Prod.fst := by
    rw [indexedDetections, List.map_map]; rfl
  rw [this, List.enum_map_fst]
  exact List.nodup_range _

lemma nonMaxSuppression_nodup (boxes : List Box) (scores : List ℚ) (ct it : ℚ) :
    (nonMaxSuppression boxes scores ct it).Nodup := by
  rw [nonMaxSuppression]
  exact nmsLoop_fst_nodup _ [] [] (by simpa using validDetections_index_nodup boxes scores ct)

/-- Inside one NMS run, two entries of `validDetections` with the same
index are the same entry. -/
lemma entry_eq_of_index_eq {valid : List Scored}
    (hnodup : (valid.map Scored.index).Nodup) {da db : Scored}
    (ha : da ∈ valid) (hb : db ∈ valid) (h : da.index = db.index) : da = db :=
  List.inj_on_of_nodup_map hnodup ha hb h

/-- Invariant of the greedy loop: pairs of already-selected detections do
not conflict, and everything conflicting with a selected detection is
suppressed; hence all pairs selected by the full loop respect the IoU
threshold. -/
lemma nmsLoop_selected_pairwise {valid : List Scored} {it : ℚ}
    (hnodup : (valid.map Scored.index).Nodup) :
    ∀ (todo : List Scored) (sel sup : List ℕ),
    todo ⊆ valid →
    (∀ da ∈ valid, ∀ db ∈ valid, da.index ∈ sel → db.index ∈ sel →
      da.index ≠ db.index → calculateIoU da.box db.box ≤ it) →
    (∀ da ∈ valid, da.index ∈ sel → ∀ o ∈ valid, o.index ≠ da.index →
      it < calculateIoU da.box o.box → o.index ∈ sup) →
    ∀ da ∈ valid, ∀ db ∈ valid,
      da.index ∈ (nmsLoop valid it todo (sel, sup)).1 →
      db.index ∈ (nmsLoop valid it todo (sel, sup)).1 →
      da.index ≠ db.index → calculateIoU da.box db.box ≤ it := by
  intro todo
  induction todo with
  | nil =>
    intro sel sup _ H1 _ da hda db hdb hsa hsb hne
    rw [nmsLoop] at hsa hsb
    exact H1 da hda db hdb hsa hsb hne
  | cons d rest ih =>
    intro sel sup hsub H1 H2 da hda db hdb hsa hsb hne
    have hdval : d ∈ valid := hsub (List.mem_cons_self d rest)
    have hrest : rest ⊆ valid := fun x hx => hsub (List.mem_cons_of_mem d hx)
    rw [nmsLoop] at hsa hsb
    by_cases hd : d.index ∈ sup
    · rw [if_pos hd] at hsa hsb
      exact ih sel sup hrest H1 H2 da hda db hdb hsa hsb hne
    · rw [if_neg hd] at hsa hsb
      refine ih (sel ++ [d.index]) (suppressOthers valid d it sup) hrest
        ?_ ?_ da hda db hdb hsa hsb hne
      · intro ea hea eb heb hia hib hine
        rcases List.mem_append.1 hia with hia | hia
        · rcases List.mem_append.1 hib with hib | hib
          · exact H1 ea hea eb heb hia hib hine
          · have heb' : eb = d :=
              entry_eq_of_index_eq hnodup heb hdval (List.mem_singleton.1 hib)
            by_contra hgt
            push_neg at hgt
            refine hd ?_
            rw [← heb']
            exact H2 ea hea hia eb heb (fun h => hine h.symm) hgt
        · have hea' : ea = d :=
            entry_eq_of_index_eq hnodup hea hdval (List.mem_singleton.1 hia)
          rcases List.mem_append.1 hib with hib | hib
          · by_contra hgt
            push_neg at hgt
            rw [calculateIoU_comm] at hgt
            refine hd ?_
            rw [← hea']
            exact H2 eb heb hib ea hea hine hgt
          · exact absurd ((List.mem_singleton.1 hia).trans
              (List.mem_singleton.1 hib).symm) hine
      · intro ea hea hia o ho hone hgt
        rcases List.mem_append.1 hia with hia | hia
        · exact subset_suppressOthers valid d it sup (H2 ea hea hia o ho hone hgt)
        · have hea' : ea = d :=
            entry_eq_of_index_eq hnodup hea hdval (List.mem_singleton.1 hia)
          rw [hea'] at hone hgt
          exact mem_suppressOthers_of_conflict ho hone hgt sup

/-- Any two distinct indices selected by one `nonMaxSuppression` run have
IoU at most `iouThreshold` (stated on the boxes list the caller passed). -/
lemma nonMaxSuppression_selected_iou_le {boxes : List Box} {scores : List ℚ}
    {ct it : ℚ} {s t : ℕ}
    (hs : s ∈ nonMaxSuppression boxes scores ct it)
    (ht : t ∈ nonMaxSuppression boxes scores ct it) (hne : s ≠ t) :
    calculateIoU (boxes.getD s default) (boxes.getD t default) ≤ it := by
  have hnodup := validDetections_index_nodup boxes scores ct
  rw [nonMaxSuppression] at hs ht
  obtain hs' := nmsLoop_fst_mem hs
  obtain ht' := nmsLoop_fst_mem ht
  rcases hs' with h | ⟨es, hes, hesi⟩
  · simp at h
  rcases ht' with h | ⟨et, het, heti⟩
  · simp at h
  have hpair := nmsLoop_selected_pairwise hnodup _ [] [] (List.Subset.refl _)
    (by intro _ _ _ _ h; simp at h) (by intro _ _ h; simp at h)
    es hes et het (hesi ▸ hs) (heti ▸ ht) (by rw [hesi, heti]; exact hne)
  have hbs : boxes.getD s default = es.box := by
    have hmem : es ∈ indexedDetections boxes scores := by
      have := (sortByScoreDesc_perm _).mem_iff.1 hes
      exact (List.mem_filter.1 this).1
    rw [← hesi]
    exact (mem_indexedDetections hmem).2.1
  have hbt : boxes.getD t default = et.box := by
    have hmem : et ∈ indexedDetections boxes scores := by
      have := (sortByScoreDesc_perm _).mem_iff.1 het
      exact (List.mem_filter.1 this).1
    rw [← heti]
    exact (mem_indexedDetections hmem).2.1
  rw [hbs, hbt]
  exact hpair

lemma classKeys_foldl_nodup (l : List RawCandidate) :
    ∀ acc : List ℕ, acc.Nodup →
    (l.foldl (fun acc d => if d.classIndex ∈ acc then acc
      else acc ++ [d.classIndex]) acc).Nodup := by
  induction l with
  | nil => intro acc hacc; exact hacc
  | cons d rest ih =>
    intro acc hacc
    rw [List.foldl_cons]
    by_cases hd : d.classIndex ∈ acc
    · rw [if_pos hd]; exact ih acc hacc
    · rw [if_neg hd]
      exact ih _ (by simp [List.nodup_append, hacc, hd])

lemma classKeys_nodup (dets : List RawCandidate) : (classKeys dets).Nodup :=
  classKeys_foldl_nodup dets [] List.nodup_nil

lemma getD_map_box {l : List RawCandidate} {n : ℕ} (hn : n < l.length) :
    (l.map (fun d => d.box)).getD n default = (l.getD n default).box := by
  rw [List.getD_eq_getElem?_getD, List.getD_eq_getElem?_getD, List.getElem?_map,
    List.getElem?_eq_getElem hn]
  rfl

lemma box_eta (B : Box) :
    (⟨B.x1, B.y1, B.x1 + (B.x2 - B.x1), B.y1 + (B.y2 - B.y1)⟩ : Box) = B := by
  cases B with
  | mk x1 y1 x2 y2 =>
    have h1 : x1 + (x2 - x1) = x2 := by ring
    have h2 : y1 + (y2 - y1) = y2 := by ring
    show Box.mk x1 y1 (x1 + (x2 - x1)) (y1 + (y2 - y1)) = Box.mk x1 y1 x2 y2
    rw [h1, h2]

lemma getD_filter_classIndex {dets : List RawCandidate} {c : ℕ} {idx : ℕ}
    (hlt : idx < ((dets.filter fun d => d.classIndex = c)).length) :
    ((dets.filter fun d => d.classIndex = c).getD idx default).classIndex = c := by
  have hmem : (dets.filter fun d => d.classIndex = c).getD idx default ∈
      dets.filter fun d => d.classIndex = c := by
    rw [List.getD_eq_getElem?_getD, List.getElem?_eq_getElem hlt]
    exact List.getElem_mem hlt
  exact of_decide_eq_true (List.mem_filter.1 hmem).2

/-- The per-class NMS bound lifted to the full published list: no two
published detections of the same class overlap beyond the IoU threshold
(each bbox is converted back to corner form for the comparison). -/
lemma processDetections_pairwise_iou (data : ℕ → ℚ) (n : ℕ)
    (videoWidth videoHeight : ℚ) :
    (processDetections data n videoWidth videoHeight).Pairwise fun d1 d2 =>
      d1.classIndex = d2.classIndex →
      calculateIoU
        ⟨d1.bbox.x, d1.bbox.y, d1.bbox.x + d1.bbox.width, d1.bbox.y + d1.bbox.height⟩
        ⟨d2.bbox.x, d2.bbox.y, d2.bbox.x + d2.bbox.width, d2.bbox.y + d2.bbox.height⟩ ≤
        YOLO_CONFIG.iouThreshold := by
  simp only [processDetections]
  rw [List.flatMap_def, List.pairwise_flatten]
  constructor
  · intro l hl
    rw [List.mem_map] at hl
    obtain ⟨c, -, rfl⟩ := hl
    rw [List.pairwise_map]
    have hnd : List.Pairwise (fun a b => a ≠ b)
        (nonMaxSuppression
          (((decodeCandidates data n videoWidth videoHeight).filter
            fun d => d.classIndex = c).map fun d => d.box)
          (((decodeCandidates data n videoWidth videoHeight).filter
            fun d => d.classIndex = c).map fun d => d.score)
          YOLO_CONFIG.confidenceThreshold YOLO_CONFIG.iouThreshold) :=
      nonMaxSuppression_nodup _ _ _ _
    refine List.Pairwise.imp_of_mem ?_ hnd
    intro a b ha hb hne _
    have hla : a < ((decodeCandidates data n videoWidth videoHeight).filter
        fun d => d.classIndex = c).length := by
      have := nonMaxSuppression_lt_length ha
      rwa [List.length_map] at this
    have hlb : b < ((decodeCandidates data n videoWidth videoHeight).filter
        fun d => d.classIndex = c).length := by
      have := nonMaxSuppression_lt_length hb
      rwa [List.length_map] at this
    have hiou := nonMaxSuppression_selected_iou_le ha hb hne
    rw [getD_map_box hla, getD_map_box hlb] at hiou
    simpa [box_eta] using hiou
  · rw [List.pairwise_map]
    have hnd : List.Pairwise (fun a b => a ≠ b)
        (classKeys (decodeCandidates data n videoWidth videoHeight)) :=
      classKeys_nodup (decodeCandidates data n videoWidth videoHeight)
    refine List.Pairwise.imp_of_mem ?_ hnd
    intro c1 c2 hm1 hm2 hne x hx y hy heq
    have hxc : x.classIndex = c1 := by
      rw [List.mem_map] at hx
      obtain ⟨idx, hidx, rfl⟩ := hx
      have hlt : idx < ((decodeCandidates data n videoWidth videoHeight).filter
          fun d => d.classIndex = c1).length := by
        have := nonMaxSuppression_lt_length hidx
        rwa [List.length_map] at this
      exact getD_filter_classIndex hlt
    have hyc : y.classIndex = c2 := by
      rw [List.mem_map] at hy
      obtain ⟨idx, hidx, rfl⟩ := hy
      have hlt : idx < ((decodeCandidates data n videoWidth videoHeight).filter
          fun d => d.classIndex = c2).length := by
        have := nonMaxSuppression_lt_length hidx
        rwa [List.length_map] at this
      exact getD_filter_classIndex hlt
    exact absurd (by rw [← hxc, ← hyc]; exact heq) hne

/-- C9: any two distinct indices selected by one `nonMaxSuppression` run
(for any thresholds with `iouThreshold ≥ 0`) have IoU at most
`iouThreshold`; consequently `processDetections` never publishes two
detections of the same class whose corner-form boxes overlap with IoU
above the configured threshold 0.4. -/
theorem nms_selected_iou_bound :
    (∀ (boxes : List Box) (scores : List ℚ) (ct it : ℚ), 0 ≤ it →
      ∀ s ∈ nonMaxSuppression boxes scores ct it,
      ∀ t ∈ nonMaxSuppression boxes scores ct it, s ≠ t →
      calculateIoU (boxes.getD s default) (boxes.getD t default) ≤ it) ∧
    (∀ (data : ℕ → ℚ) (n : ℕ) (videoWidth videoHeight : ℚ),
      (processDetections data n videoWidth videoHeight).Pairwise fun d1 d2 =>
        d1.classIndex = d2.classIndex →
        calculateIoU
          ⟨d1.bbox.x, d1.bbox.y, d1.bbox.x + d1.bbox.width, d1.bbox.y + d1.bbox.height⟩
          ⟨d2.bbox.x, d2.bbox.y, d2.bbox.x + d2.bbox.width, d2.bbox.y + d2.bbox.height⟩ ≤
          YOLO_CONFIG.iouThreshold) :=
  ⟨fun _ _ _ _ _ _ hs _ ht hne => nonMaxSuppression_selected_iou_le hs ht hne,
   processDetections_pairwise_iou⟩

/-- C9 witness. -/
theorem nms_selected_iou_bound_witness :
    calculateIoU (([⟨0, 0, 1, 1⟩, ⟨2, 2, 3, 3⟩] : List Box).getD 0 default)
      (([⟨0, 0, 1, 1⟩, ⟨2, 2, 3, 3⟩] : List Box).getD 1 default) ≤ 2/5 :=
  nms_selected_iou_bound.1 [⟨0, 0, 1, 1⟩, ⟨2, 2, 3, 3⟩] [9/10, 4/5] (1/2) (2/5)
    (by norm_num) 0
    (by norm_num [nonMaxSuppression, indexedDetections, sortByScoreDesc, insertDesc,
      nmsLoop, suppressOthers, List.foldl, calculateIoU, List.enum, List.enumFrom])
    1
    (by norm_num [nonMaxSuppression, indexedDetections, sortByScoreDesc, insertDesc,
      nmsLoop, suppressOthers, List.foldl, calculateIoU, List.enum, List.enumFrom])
    (by norm_num)

/-!
State machines of `usePersonDetection` (the `detectPersons` cycle) and of
the `WebcamFeed` component (the detection interval and the auto-capture
effect).  React state updates become record updates; one timer tick or one
newly published detection set is one step.
-/

/-- State of the `usePersonDetection` hook read and written by
`detectPersons`: the published detection set, the in-flight flag, the
model flag (`modelRef` is non-null exactly when `modelLoaded` is true —
the two are set together by `initializeModel` and `cleanup`), and the
error channel. -/
structure HookState where
  detectedPersons : List ObjectDetection
  isDetecting : Bool
  modelLoaded : Bool
  error : Option String
  deriving DecidableEq, Repr

/-- Outcome of the preprocess → predict → processDetections body of one
cycle: the successful detection list, or the message of a thrown error. -/
inductive CycleOutcome where
  | success (persons : List ObjectDetection)
  | failure (msg : String)
  deriving DecidableEq, Repr

/-- `detectPersons(videoElement)` as a state transition.  Without a loaded
model it returns after a warning.  Otherwise it sets `isDetecting`, clears
`error`, runs the pipeline; on success it replaces `detectedPersons`, on a
thrown error the catch block only records the error (the detection set is
left untouched); the finally block clears `isDetecting`. -/
def detectPersons (st : HookState) (outcome : CycleOutcome) : HookState :=
  if st.modelLoaded = false then st
  else
    match outcome with
    | .success persons =>
        { st with isDetecting := false, error := none, detectedPersons := persons }
    | .failure msg =>
        { st with isDetecting := false,
                  error := some ("Detection failed: " ++ msg) }

/-- A sample published detection. -/
def personDetection : ObjectDetection :=
  { bbox := { x := 0, y := 0, width := 1, height := 1 },
    confidence := 9/10, className := "person", classIndex := PERSON_CLASS_INDEX }

/-- C3 counterexample: a failing cycle run from a state whose published
detection set is non-empty records the error but does not clear the
detection set, so "after any failed cycle, detectedPersons is empty" is
false. -/
theorem detectPersons_failure_not_cleared :
    (detectPersons
      { detectedPersons := [personDetection], isDetecting := false,
        modelLoaded := true, error := none } (.failure "boom")).error =
      some "Detection failed: boom" ∧
    (detectPersons
      { detectedPersons := [personDetection], isDetecting := false,
        modelLoaded := true, error := none } (.failure "boom")).detectedPersons ≠ [] := by
  constructor
  · simp [detectPersons]
  · simp [detectPersons]

/-- C3 (amended): whenever a cycle fails with an exception (model loaded),
the error channel records the failure and the in-flight flag is cleared,
but the published detection set is left unchanged — it keeps the result of
the last successful cycle instead of being cleared. -/
theorem detectPersons_failure_spec (st : HookState) (msg : String)
    (hm : st.modelLoaded = true) :
    (detectPersons st (.failure msg)).error = some ("Detection failed: " ++ msg) ∧
    (detectPersons st (.failure msg)).detectedPersons = st.detectedPersons ∧
    (detectPersons st (.failure msg)).isDetecting = false := by
  simp [detectPersons, hm]

/-- C3 witness. -/
theorem detectPersons_failure_spec_witness :
    (detectPersons
      { detectedPersons := [personDetection], isDetecting := false,
        modelLoaded := true, error := none } (.failure "boom")).error =
      some ("Detection failed: " ++ "boom") ∧
    (detectPersons
      { detectedPersons := [personDetection], isDetecting := false,
        modelLoaded := true, error := none } (.failure "boom")).detectedPersons =
      [personDetection] ∧
    (detectPersons
      { detectedPersons := [personDetection], isDetecting := false,
        modelLoaded := true, error := none } (.failure "boom")).isDetecting = false :=
  detectPersons_failure_spec
    { detectedPersons := [personDetection], isDetecting := false,
      modelLoaded := true, error := none } "boom" rfl

/-- Component-level state seen by the detection interval effect of
`WebcamFeed`: the hook state, whether `videoRef.current` is non-null, and
the component `error` state. -/
structure FeedState where
  hook : HookState
  videoPresent : Bool
  feedError : Option String
  deriving DecidableEq, Repr

/-- One firing of the `setInterval` callback of the detection effect: the
guard checks only `videoRef.current && !error`; when it passes, the
callback awaits `detectPersons` on the current frame. -/
def detectionTick (st : FeedState) (outcome : CycleOutcome) : FeedState :=
  if st.videoPresent = true ∧ st.feedError = none then
    { st with hook := detectPersons st.hook outcome }
  else st

/-- C4 counterexample: a tick that fires while `isDetecting` is true (the
previous cycle still in flight) is not skipped — with the video present,
no error, and the model loaded, it runs a full cycle and replaces the
published detection set. -/
theorem detectionTick_inflight_not_skipped :
    ({ hook := { detectedPersons := [], isDetecting := true,
                 modelLoaded := true, error := none },
       videoPresent := true, feedError := none } : FeedState).hook.isDetecting = true ∧
    (detectionTick
      { hook := { detectedPersons := [], isDetecting := true,
                  modelLoaded := true, error := none },
        videoPresent := true, feedError := none }
      (.success [personDetection])).hook.detectedPersons = [personDetection] ∧
    ({ hook := { detectedPersons := [], isDetecting := true,
                 modelLoaded := true, error := none },
       videoPresent := true, feedError := none } : FeedState).hook.detectedPersons = [] := by
  refine ⟨rfl, ?_, rfl⟩
  simp [detectionTick, detectPersons]

/-- C4 (amended): the interval callback consults only the video element
and the component error channel, never the in-flight flag: a tick firing
while `isDetecting` is true still starts a full pipeline cycle, and on
success it replaces the published detection set (ticks are neither skipped
nor queued). -/
theorem detectionTick_no_inflight_guard (st : FeedState)
    (persons : List ObjectDetection)
    (hv : st.videoPresent = true) (he : st.feedError = none)
    (hm : st.hook.modelLoaded = true) (hd : st.hook.isDetecting = true) :
    (detectionTick st (.success persons)).hook.detectedPersons = persons ∧
    (detectionTick st (.success persons)).hook.error = none := by
  simp [detectionTick, detectPersons, hv, he, hm]

/-- C4 witness. -/
theorem detectionTick_no_inflight_guard_witness :
    (detectionTick
      { hook := { detectedPersons := [], isDetecting := true,
                  modelLoaded := true, error := none },
        videoPresent := true, feedError := none }
      (.success [personDetection])).hook.detectedPersons = [personDetection] ∧
    (detectionTick
      { hook := { detectedPersons := [], isDetecting := true,
                  modelLoaded := true, error := none },
        videoPresent := true, feedError := none }
      (.success [personDetection])).hook.error = none :=
  detectionTick_no_inflight_guard
    { hook := { detectedPersons := [], isDetecting := true,
                modelLoaded := true, error := none },
      videoPresent := true, feedError := none }
    [personDetection] rfl rfl rfl rfl

/-- Capture-relevant state of `WebcamFeed`; `capturedEvents` records the
`onImageCapture` emissions to the external gallery consumer (the
`onImageCapture` prop is assumed provided and `captureImage` assumed to
succeed — canvas and video elements present). -/
structure CaptureState where
  capturedImage : Option String
  hasAutoCapture : Bool
  showScissorsAlert : Bool
  capturedEvents : List String
  deriving DecidableEq, Repr

/-- `detectedPersons.some(det => det.className === 'scissors')`. -/
def hasScissorsDetected (dets : List ObjectDetection) : Bool :=
  dets.any fun det => det.className = "scissors"

/-- The auto-capture effect, one step per newly published detection set:
when scissors are detected, nothing was captured yet, the one-shot latch
is clear and the stream is live, it sets the latch, raises the alert and
captures the current frame (`frame` is the data URL the canvas encodes);
otherwise the state is unchanged.  (The 5-second alert self-clear timer is
time-driven and not part of this step.) -/
def autoCaptureStep (isStreaming : Bool) (dets : List ObjectDetection)
    (frame : String) (st : CaptureState) : CaptureState :=
  if hasScissorsDetected dets = true ∧ st.capturedImage = none ∧
      st.hasAutoCapture = false ∧ isStreaming = true then
    { st with hasAutoCapture := true,
              showScissorsAlert := true,
              capturedImage := some frame,
              capturedEvents := st.capturedEvents ++ [frame] }
  else st

/-- The per-session capture state right after a stream start / session
reset. -/
def freshCaptureState : CaptureState :=
  { capturedImage := none, hasAutoCapture := false,
    showScissorsAlert := false, capturedEvents := [] }

/-- One streaming session: from the fresh state, one auto-capture step per
published detection set (paired with the frame the canvas would encode),
with `isStreaming` true throughout. -/
def runSession (cycles : List (List ObjectDetection × String)) : CaptureState :=
  cycles.foldl (fun st c => autoCaptureStep true c.1 c.2 st) freshCaptureState

/-- Once the one-shot latch is set, every later auto-capture step is a
no-op. -/
lemma capture_foldl_of_latched (cycles : List (List ObjectDetection × String)) :
    ∀ st : CaptureState, st.hasAutoCapture = true →
    cycles.foldl (fun st c => autoCaptureStep true c.1 c.2 st) st = st := by
  induction cycles with
  | nil => intro st _; rfl
  | cons c rest ih =>
    intro st hst
    rw [List.foldl_cons]
    have hstep : autoCaptureStep true c.1 c.2 st = st := by
      rw [autoCaptureStep, if_neg]
      rintro ⟨-, -, hlatch, -⟩
      rw [hst] at hlatch
      exact absurd hlatch (by simp)
    rw [hstep]
    exact ih st hst

/-- Running any cycles from a fresh-like state either stays fresh having
met no scissors, or latches with exactly one capture event emitted. -/
lemma capture_foldl_cases (cycles : List (List ObjectDetection × String)) :
    ∀ st : CaptureState,
    st.hasAutoCapture = false → st.capturedImage = none → st.capturedEvents = [] →
    ((cycles.foldl (fun st c => autoCaptureStep true c.1 c.2 st) st).capturedEvents = [] ∧
      ∀ c ∈ cycles, hasScissorsDetected c.1 = false) ∨
    (cycles.foldl (fun st c => autoCaptureStep true c.1 c.2 st) st).capturedEvents.length = 1 := by
  induction cycles with
  | nil =>
    intro st _ _ hev
    exact Or.inl ⟨hev, by intro c hc; simp at hc⟩
  | cons c rest ih =>
    intro st hlatch himg hev
    rw [List.foldl_cons]
    by_cases hs : hasScissorsDetected c.1 = true
    · have hstep : autoCaptureStep true c.1 c.2 st =
          { st with hasAutoCapture := true, showScissorsAlert := true,
                    capturedImage := some c.2,
                    capturedEvents := st.capturedEvents ++ [c.2] } := by
        rw [autoCaptureStep, if_pos ⟨hs, himg, hlatch, rfl⟩]
      rw [hstep, capture_foldl_of_latched rest _ rfl]
      right
      simp [hev]
    · have hstep : autoCaptureStep true c.1 c.2 st = st := by
        rw [autoCaptureStep, if_neg]
        rintro ⟨hs', -, -, -⟩
        exact hs hs'
      rw [hstep]
      rcases ih st hlatch himg hev with ⟨hfin, hnone⟩ | hone
      · refine Or.inl ⟨hfin, ?_⟩
        intro d hd
        rcases List.mem_cons.1 hd with rfl | hd
        · exact Bool.not_eq_true _ ▸ (by revert hs; cases hasScissorsDetected d.1 <;> simp)
        · exact hnone d hd
      · exact Or.inr hone

/-- C1: within one streaming session (stream start to reset), if two
consecutive published detection sets both contain a scissors detection
while streaming, exactly one capture event is emitted across the whole
session: the first trigger sets the `hasAutoCapture` latch and the latch
blocks every later trigger. -/
theorem autoCapture_once_per_session
    (cycles : List (List ObjectDetection × String)) (i : ℕ)
    (hi : i + 1 < cycles.length)
    (h1 : hasScissorsDetected (cycles.get ⟨i, Nat.lt_of_succ_lt hi⟩).1 = true)
    (h2 : hasScissorsDetected (cycles.get ⟨i + 1, hi⟩).1 = true) :
    (runSession cycles).capturedEvents.length = 1 := by
  rcases capture_foldl_cases cycles freshCaptureState rfl rfl rfl with ⟨-, hnone⟩ | hone
  · exact absurd h1 (by rw [hnone (cycles.get ⟨i, Nat.lt_of_succ_lt hi⟩)
      (cycles.get_mem _ _)]; simp)
  · exact hone

/-- A sample scissors detection. -/
def scissorsDetection : ObjectDetection :=
  { bbox := { x := 0, y := 0, width := 1, height := 1 },
    confidence := 9/10, className := "scissors", classIndex := SCISSORS_CLASS_INDEX }

/-- C1 witness. -/
theorem autoCapture_once_per_session_witness :
    (runSession [([scissorsDetection], "frame1"),
                 ([scissorsDetection], "frame2")]).capturedEvents.length = 1 :=
  autoCapture_once_per_session
    [([scissorsDetection], "frame1"), ([scissorsDetection], "frame2")] 0
    (by norm_num)
    (by simp [hasScissorsDetected, scissorsDetection])
    (by simp [hasScissorsDetected, scissorsDetection])

end ScissorDetection
